import Mathlib

/-!
Shallow embedding of the catchment-enricher zonal-statistics core
(`pixel_counter.py` and `pixel_counter_functions.py`).

Modelling conventions:
* Python floats are idealised as exact rationals; `int(...)` applied to a
  float is truncation toward zero, embedded as `ratTrunc`.
* A numpy 2-D array window is embedded as its row-major flattening, a
  `List` of cell values produced by mapping over an index list `winIdx`.
* numpy masked-array semantics: `masked.count()` counts unmasked cells;
  a comparison `masked == code` against an unmasked scalar marks masked
  cells unequal (numpy `MaskedArray` comparison fills masked slots so that
  they compare unequal to an unmasked operand), so
  `np.count_nonzero(masked == code)` counts unmasked cells equal to the
  code.
* GDAL `ReadAsArray` fails (returns `None`, which makes the script crash
  shortly after) whenever the requested window is not fully inside the
  raster or has a non-positive size; this is embedded as an `Option`
  result.  Failures that abort the Python run (raised exceptions) are
  embedded as `Except.error`.
-/

/-- Python `int(...)` applied to a real quantity: truncation toward zero.
On an exact rational this is the truncated division of numerator by
denominator. -/
def ratTrunc (q : ℚ) : ℤ := q.num.tdiv q.den

/-- The six GDAL geotransform coefficients, in the order returned by
`rds.GetGeoTransform()`: `(originX, pixelWidth, rotX, originY, rotY,
pixelHeight)`. -/
structure GeoTransform where
  originX : ℚ
  pixelWidth : ℚ
  rotX : ℚ
  originY : ℚ
  rotY : ℚ
  pixelHeight : ℚ
deriving DecidableEq

/-- `bbox_to_pixel_offsets(gt, bbox)` from `pixel_counter.py`.  The bbox is
`(minX, maxX, minY, maxY)`, the component order produced by OGR
`GetEnvelope()`/`GetExtent()`.  Returns `(x1, y1, xsize, ysize)`. -/
def bbox_to_pixel_offsets (gt : GeoTransform) (bbox : ℚ × ℚ × ℚ × ℚ) :
    ℤ × ℤ × ℤ × ℤ :=
  let originX := gt.originX
  let originY := gt.originY
  let pixel_width := gt.pixelWidth
  let pixel_height := gt.pixelHeight
  let x1 := ratTrunc ((bbox.1 - originX) / pixel_width)
  let x2 := ratTrunc ((bbox.2.1 - originX) / pixel_width) + 1
  let y1 := ratTrunc ((bbox.2.2.2 - originY) / pixel_height)
  let y2 := ratTrunc ((bbox.2.2.1 - originY) / pixel_height) + 1
  (x1, y1, x2 - x1, y2 - y1)

/-- One cell of the exclusion mask
`np.logical_or(src_array == nodata_value, np.logical_not(rv_array))`:
`v` is the raster cell value, `cov` the rasterized coverage bit.  When no
no-data value is configured (`nodata_value is None`) the numpy comparison
`src_array == None` is elementwise false. -/
def excludedCell (nodata : Option ℚ) (v : ℚ) (cov : Bool) : Bool :=
  (match nodata with
   | some nd => v == nd
   | none => false) || !cov

/-- The full exclusion mask passed as `mask=` to `np.ma.MaskedArray`,
cellwise over the source window and the rasterized coverage window. -/
def excludedMask (nodata : Option ℚ) (src : List ℚ) (rv : List Bool) :
    List Bool :=
  List.zipWith (excludedCell nodata) src rv

/-- `masked.count()`: the number of unmasked (non-excluded) cells. -/
def maskedCount (src : List ℚ) (excl : List Bool) : ℕ :=
  (List.zip src excl).countP fun c => !c.2

/-- `np.count_nonzero(masked == [code])`: the number of unmasked cells whose
value equals `code` (masked cells compare unequal to the unmasked scalar
`code`, see the header note on numpy semantics). -/
def countEq (src : List ℚ) (excl : List Bool) (code : ℚ) : ℕ :=
  (List.zip src excl).countP fun c => !c.2 && c.1 == code

/-- The `feature_stats` record built in `zonal_stats` (`pixel_counter.py`
lines 135-159): FID, HydroID, total unmasked pixel count, and one count per
enumerated NLCD class code. -/
structure FeatureStats where
  FID : ℤ
  HydroID : ℤ
  TotalPixels : ℕ
  c11 : ℕ
  c12 : ℕ
  c21 : ℕ
  c22 : ℕ
  c23 : ℕ
  c24 : ℕ
  c31 : ℕ
  c41 : ℕ
  c42 : ℕ
  c43 : ℕ
  c51 : ℕ
  c52 : ℕ
  c71 : ℕ
  c72 : ℕ
  c73 : ℕ
  c74 : ℕ
  c81 : ℕ
  c82 : ℕ
  c90 : ℕ
  c95 : ℕ
deriving DecidableEq

/-- Building the `feature_stats` dictionary of `zonal_stats` from the source
window and the exclusion mask. -/
def mkFeatureStats (fid hydro : ℤ) (src : List ℚ) (excl : List Bool) :
    FeatureStats :=
  { FID := fid
    HydroID := hydro
    TotalPixels := maskedCount src excl
    c11 := countEq src excl 11
    c12 := countEq src excl 12
    c21 := countEq src excl 21
    c22 := countEq src excl 22
    c23 := countEq src excl 23
    c24 := countEq src excl 24
    c31 := countEq src excl 31
    c41 := countEq src excl 41
    c42 := countEq src excl 42
    c43 := countEq src excl 43
    c51 := countEq src excl 51
    c52 := countEq src excl 52
    c71 := countEq src excl 71
    c72 := countEq src excl 72
    c73 := countEq src excl 73
    c74 := countEq src excl 74
    c81 := countEq src excl 81
    c82 := countEq src excl 82
    c90 := countEq src excl 90
    c95 := countEq src excl 95 }

/-- The 20 enumerated NLCD class codes tabulated by the source. -/
def nlcdCodes : List ℚ :=
  [11, 12, 21, 22, 23, 24, 31, 41, 42, 43, 51, 52, 71, 72, 73, 74, 81, 82, 90, 95]

/-- The `feature_stats` record built by `get_nlcd_counts`
(`pixel_counter_functions.py`): the 20 per-class counts plus the grouped
first-digit aggregates.  Each group field is, as in the source, a literal
sum of `np.count_nonzero` terms. -/
structure NLCDStats where
  FID : ℤ
  HydroID : ℤ
  TotalPixels : ℕ
  lulc_11 : ℕ
  lulc_12 : ℕ
  lulc_21 : ℕ
  lulc_22 : ℕ
  lulc_23 : ℕ
  lulc_24 : ℕ
  lulc_31 : ℕ
  lulc_41 : ℕ
  lulc_42 : ℕ
  lulc_43 : ℕ
  lulc_51 : ℕ
  lulc_52 : ℕ
  lulc_71 : ℕ
  lulc_72 : ℕ
  lulc_73 : ℕ
  lulc_74 : ℕ
  lulc_81 : ℕ
  lulc_82 : ℕ
  lulc_90 : ℕ
  lulc_95 : ℕ
  lulc_1 : ℕ
  lulc_2 : ℕ
  lulc_3 : ℕ
  lulc_4 : ℕ
  lulc_5 : ℕ
  lulc_7 : ℕ
  lulc_8 : ℕ
  lulc_9 : ℕ
deriving DecidableEq

/-- `get_nlcd_counts(feat, masked)` from `pixel_counter_functions.py`. -/
def get_nlcd_counts (fid hydro : ℤ) (src : List ℚ) (excl : List Bool) :
    NLCDStats :=
  { FID := fid
    HydroID := hydro
    TotalPixels := maskedCount src excl
    lulc_11 := countEq src excl 11
    lulc_12 := countEq src excl 12
    lulc_21 := countEq src excl 21
    lulc_22 := countEq src excl 22
    lulc_23 := countEq src excl 23
    lulc_24 := countEq src excl 24
    lulc_31 := countEq src excl 31
    lulc_41 := countEq src excl 41
    lulc_42 := countEq src excl 42
    lulc_43 := countEq src excl 43
    lulc_51 := countEq src excl 51
    lulc_52 := countEq src excl 52
    lulc_71 := countEq src excl 71
    lulc_72 := countEq src excl 72
    lulc_73 := countEq src excl 73
    lulc_74 := countEq src excl 74
    lulc_81 := countEq src excl 81
    lulc_82 := countEq src excl 82
    lulc_90 := countEq src excl 90
    lulc_95 := countEq src excl 95
    lulc_1 := countEq src excl 11 + countEq src excl 12
    lulc_2 := countEq src excl 21 + countEq src excl 22
                + countEq src excl 23 + countEq src excl 24
    lulc_3 := countEq src excl 31
    lulc_4 := countEq src excl 41 + countEq src excl 42
                + countEq src excl 43
    lulc_5 := countEq src excl 51 + countEq src excl 52
    lulc_7 := countEq src excl 71 + countEq src excl 72
                + countEq src excl 73 + countEq src excl 74
    lulc_8 := countEq src excl 81 + countEq src excl 82
    lulc_9 := countEq src excl 90 + countEq src excl 95 }

/-! Supporting lemmas about truncation toward zero. -/

lemma ratTrunc_eq_floor_of_nonneg {q : ℚ} (h : 0 ≤ q) : ratTrunc q = ⌊q⌋ := by
  unfold ratTrunc
  have hnum : 0 ≤ q.num := Rat.num_nonneg.mpr h
  rw [Int.tdiv_eq_ediv hnum (Int.ofNat_nonneg q.den)]
  rw [← Rat.floor_intCast_div_natCast q.num q.den]
  rw [Rat.num_div_den]

lemma ratTrunc_eq_ceil_of_neg {q : ℚ} (h : q < 0) : ratTrunc q = ⌈q⌉ := by
  have hq : ratTrunc q = -ratTrunc (-q) := by
    unfold ratTrunc
    rw [Rat.neg_num, Rat.neg_den, Int.neg_tdiv, neg_neg]
  rw [hq, ratTrunc_eq_floor_of_nonneg (by linarith : (0:ℚ) ≤ -q), Int.floor_neg,
    neg_neg]

/-- Truncation toward zero, characterised through floor and ceiling. -/
lemma ratTrunc_eq (q : ℚ) : ratTrunc q = if 0 ≤ q then ⌊q⌋ else ⌈q⌉ := by
  by_cases h : 0 ≤ q
  · rw [if_pos h, ratTrunc_eq_floor_of_nonneg h]
  · rw [if_neg h, ratTrunc_eq_ceil_of_neg (lt_of_not_le h)]

lemma ratTrunc_mono {a b : ℚ} (h : a ≤ b) : ratTrunc a ≤ ratTrunc b := by
  rcases le_or_lt 0 a with ha | ha
  · rw [ratTrunc_eq_floor_of_nonneg ha,
      ratTrunc_eq_floor_of_nonneg (le_trans ha h)]
    exact Int.floor_le_floor h
  · rcases le_or_lt 0 b with hb | hb
    · rw [ratTrunc_eq_ceil_of_neg ha, ratTrunc_eq_floor_of_nonneg hb]
      calc ⌈a⌉ ≤ 0 := Int.ceil_le.mpr (by exact_mod_cast le_of_lt ha)
        _ ≤ ⌊b⌋ := Int.le_floor.mpr (by exact_mod_cast hb)
    · rw [ratTrunc_eq_ceil_of_neg ha, ratTrunc_eq_ceil_of_neg hb]
      exact Int.ceil_mono h

/-! Counting lemmas used for the tabulator properties. -/

lemma countP_and_split {α : Type} (l : List α) (p q : α → Bool) :
    l.countP p
      = l.countP (fun a => p a && q a) + l.countP (fun a => p a && !q a) := by
  induction l with
  | nil => simp
  | cons x xs ih =>
    simp only [List.countP_cons, ih]
    cases hp : p x <;> cases hq : q x <;> simp [hp, hq] <;> omega

lemma countP_or_disjoint {α : Type} (l : List α) (p q : α → Bool)
    (h : ∀ a ∈ l, ¬(p a = true ∧ q a = true)) :
    l.countP (fun a => p a || q a) = l.countP p + l.countP q := by
  induction l with
  | nil => simp
  | cons x xs ih =>
    have hx := h x (List.mem_cons_self x xs)
    have ihs := ih (fun a ha => h a (List.mem_cons_of_mem x ha))
    simp only [List.countP_cons, ihs]
    cases hp : p x <;> cases hq : q x <;> simp [hp, hq] at hx ⊢ <;> omega

lemma sum_map_countEq (src : List ℚ) (excl : List Bool) (codes : List ℚ)
    (hnd : codes.Nodup) :
    (codes.map (countEq src excl)).sum
      = (List.zip src excl).countP fun c => !c.2 && decide (c.1 ∈ codes) := by
  induction codes with
  | nil => simp [List.countP_eq_zero]
  | cons d ds ih =>
    rcases List.nodup_cons.mp hnd with ⟨hd, hds⟩
    rw [List.map_cons, List.sum_cons, ih hds]
    have hcong :
        ((List.zip src excl).countP fun c => !c.2 && decide (c.1 ∈ d :: ds))
          = (List.zip src excl).countP
              fun c => (!c.2 && c.1 == d) || (!c.2 && decide (c.1 ∈ ds)) := by
      refine List.countP_congr ?_
      intro x _
      simp only [Bool.and_eq_true, Bool.or_eq_true, decide_eq_true_eq,
        beq_iff_eq, List.mem_cons]
      tauto
    have hdisj :
        ((List.zip src excl).countP
            fun c => (!c.2 && c.1 == d) || (!c.2 && decide (c.1 ∈ ds)))
          = ((List.zip src excl).countP fun c => !c.2 && c.1 == d)
            + (List.zip src excl).countP fun c => !c.2 && decide (c.1 ∈ ds) := by
      refine countP_or_disjoint _ _ _ ?_
      intro a _ hab
      rcases hab with ⟨h1, h2⟩
      simp only [Bool.and_eq_true, beq_iff_eq, decide_eq_true_eq] at h1 h2
      exact hd (h1.2 ▸ h2.2)
    rw [hcong, hdisj, countEq]

/-- C1.  `bbox_to_pixel_offsets` returns exactly the pair of truncated
relative offsets with the `+1` padded sizes, where the integer conversion is
truncation toward zero (floor for nonnegative quotients, ceiling for
negative ones), and nothing is clamped against any raster bound (the
function does not even receive the raster). -/
theorem bbox_to_pixel_offsets_spec (gt : GeoTransform)
    (minX maxX minY maxY : ℚ)
    (hpw : gt.pixelWidth ≠ 0) (hph : gt.pixelHeight ≠ 0) :
    bbox_to_pixel_offsets gt (minX, maxX, minY, maxY)
      = (ratTrunc ((minX - gt.originX) / gt.pixelWidth),
         ratTrunc ((maxY - gt.originY) / gt.pixelHeight),
         ratTrunc ((maxX - gt.originX) / gt.pixelWidth) + 1
           - ratTrunc ((minX - gt.originX) / gt.pixelWidth),
         ratTrunc ((minY - gt.originY) / gt.pixelHeight) + 1
           - ratTrunc ((maxY - gt.originY) / gt.pixelHeight))
    ∧ ∀ q : ℚ, ratTrunc q = if 0 ≤ q then ⌊q⌋ else ⌈q⌉ :=
  ⟨rfl, ratTrunc_eq⟩

/-- Witness for C1 at a concrete geotransform and bounding box; note the
x-quotient of the lower corner is negative, exercising truncation toward
zero, and the returned window is not clamped to the 10-pixel raster. -/
theorem bbox_to_pixel_offsets_spec_witness :
    (1 : ℚ) ≠ 0 ∧ (-1 : ℚ) ≠ 0
      ∧ bbox_to_pixel_offsets ⟨0, 1, 0, 10, 0, -1⟩ (-3/2, 25/2, 3, 7)
          = (-1, 3, 14, 5) := by
  refine ⟨by norm_num, by norm_num, ?_⟩
  have h := (bbox_to_pixel_offsets_spec ⟨0, 1, 0, 10, 0, -1⟩ (-3/2) (25/2) 3 7
    (by norm_num) (by norm_num)).1
  rw [h]
  with_unfolding_all decide

/-- C2.  Cellwise description of the exclusion mask: a cell is excluded iff
its raster value equals the configured no-data value (a clause that is
false everywhere when no no-data value is configured) or the coverage mask
does not cover it. -/
theorem excludedMask_spec (nodata : Option ℚ) (src : List ℚ) (cov : List Bool)
    (i : ℕ) (h1 : i < src.length) (h2 : i < cov.length) :
    (excludedMask nodata src cov).get
        ⟨i, by simp only [excludedMask, List.length_zipWith]; omega⟩
      = ((match nodata with
          | some nd => src.get ⟨i, h1⟩ == nd
          | none => false) || !(cov.get ⟨i, h2⟩))
    ∧ (nodata = none →
        (excludedMask nodata src cov).get
            ⟨i, by simp only [excludedMask, List.length_zipWith]; omega⟩
          = !(cov.get ⟨i, h2⟩)) := by
  constructor
  · simp only [excludedMask, excludedCell, List.get_eq_getElem,
      List.getElem_zipWith]
  · intro h
    subst h
    simp only [excludedMask, excludedCell, List.get_eq_getElem,
      List.getElem_zipWith, Bool.false_or]

/-- Witness for C2: a raster window `[5, 3]` with no-data 5 and coverage
`[true, false]`; cell 0 is excluded because its value matches the no-data
value. -/
theorem excludedMask_spec_witness :
    (excludedMask (some 5) [5, 3] [true, false]).get ⟨0, by decide⟩ = true := by
  have h := (excludedMask_spec (some 5) [5, 3] [true, false] 0
    (by decide) (by decide)).1
  exact h.trans (by with_unfolding_all decide)

/-- C3.  Count conservation: the total unmasked pixel count is at least the
sum of the 20 per-class counts, with equality exactly when every unmasked
cell's value is one of the 20 enumerated NLCD codes. -/
theorem featureStats_count_conservation (fid hydro : ℤ) (src : List ℚ)
    (excl : List Bool) :
    (mkFeatureStats fid hydro src excl).c11
        + (mkFeatureStats fid hydro src excl).c12
        + (mkFeatureStats fid hydro src excl).c21
        + (mkFeatureStats fid hydro src excl).c22
        + (mkFeatureStats fid hydro src excl).c23
        + (mkFeatureStats fid hydro src excl).c24
        + (mkFeatureStats fid hydro src excl).c31
        + (mkFeatureStats fid hydro src excl).c41
        + (mkFeatureStats fid hydro src excl).c42
        + (mkFeatureStats fid hydro src excl).c43
        + (mkFeatureStats fid hydro src excl).c51
        + (mkFeatureStats fid hydro src excl).c52
        + (mkFeatureStats fid hydro src excl).c71
        + (mkFeatureStats fid hydro src excl).c72
        + (mkFeatureStats fid hydro src excl).c73
        + (mkFeatureStats fid hydro src excl).c74
        + (mkFeatureStats fid hydro src excl).c81
        + (mkFeatureStats fid hydro src excl).c82
        + (mkFeatureStats fid hydro src excl).c90
        + (mkFeatureStats fid hydro src excl).c95
      ≤ (mkFeatureStats fid hydro src excl).TotalPixels
    ∧ ((mkFeatureStats fid hydro src excl).TotalPixels
          = (mkFeatureStats fid hydro src excl).c11
            + (mkFeatureStats fid hydro src excl).c12
            + (mkFeatureStats fid hydro src excl).c21
            + (mkFeatureStats fid hydro src excl).c22
            + (mkFeatureStats fid hydro src excl).c23
            + (mkFeatureStats fid hydro src excl).c24
            + (mkFeatureStats fid hydro src excl).c31
            + (mkFeatureStats fid hydro src excl).c41
            + (mkFeatureStats fid hydro src excl).c42
            + (mkFeatureStats fid hydro src excl).c43
            + (mkFeatureStats fid hydro src excl).c51
            + (mkFeatureStats fid hydro src excl).c52
            + (mkFeatureStats fid hydro src excl).c71
            + (mkFeatureStats fid hydro src excl).c72
            + (mkFeatureStats fid hydro src excl).c73
            + (mkFeatureStats fid hydro src excl).c74
            + (mkFeatureStats fid hydro src excl).c81
            + (mkFeatureStats fid hydro src excl).c82
            + (mkFeatureStats fid hydro src excl).c90
            + (mkFeatureStats fid hydro src excl).c95
        ↔ ∀ c ∈ List.zip src excl, c.2 = false → c.1 ∈ nlcdCodes) := by
  have hnd : nlcdCodes.Nodup := by
    with_unfolding_all decide
  have hsum :
      (mkFeatureStats fid hydro src excl).c11
        + (mkFeatureStats fid hydro src excl).c12
        + (mkFeatureStats fid hydro src excl).c21
        + (mkFeatureStats fid hydro src excl).c22
        + (mkFeatureStats fid hydro src excl).c23
        + (mkFeatureStats fid hydro src excl).c24
        + (mkFeatureStats fid hydro src excl).c31
        + (mkFeatureStats fid hydro src excl).c41
        + (mkFeatureStats fid hydro src excl).c42
        + (mkFeatureStats fid hydro src excl).c43
        + (mkFeatureStats fid hydro src excl).c51
        + (mkFeatureStats fid hydro src excl).c52
        + (mkFeatureStats fid hydro src excl).c71
        + (mkFeatureStats fid hydro src excl).c72
        + (mkFeatureStats fid hydro src excl).c73
        + (mkFeatureStats fid hydro src excl).c74
        + (mkFeatureStats fid hydro src excl).c81
        + (mkFeatureStats fid hydro src excl).c82
        + (mkFeatureStats fid hydro src excl).c90
        + (mkFeatureStats fid hydro src excl).c95
      = (List.zip src excl).countP
          fun c => !c.2 && decide (c.1 ∈ nlcdCodes) := by
    rw [← sum_map_countEq src excl nlcdCodes hnd]
    simp only [mkFeatureStats, nlcdCodes, List.map_cons, List.map_nil,
      List.sum_cons, List.sum_nil]
    omega
  have hsplit := countP_and_split (List.zip src excl)
    (fun c => !c.2) (fun c => decide (c.1 ∈ nlcdCodes))
  have htot : (mkFeatureStats fid hydro src excl).TotalPixels
      = (List.zip src excl).countP (fun c => !c.2) := rfl
  constructor
  · rw [hsum, htot, hsplit]
    omega
  · rw [hsum, htot, hsplit]
    have hz := @List.countP_eq_zero _ (List.zip src excl)
      (fun c : ℚ × Bool => !c.2 && !decide (c.1 ∈ nlcdCodes))
    constructor
    · intro heq c hc hfalse
      have h0 : (List.zip src excl).countP
          (fun c => !c.2 && !decide (c.1 ∈ nlcdCodes)) = 0 := by omega
      have := (hz.mp h0) c hc
      simp only [hfalse, Bool.not_false, Bool.true_and, Bool.not_eq_true,
        decide_eq_false_iff_not, Decidable.not_not] at this
      simpa using this
    · intro hall
      have h0 : (List.zip src excl).countP
          (fun c => !c.2 && !decide (c.1 ∈ nlcdCodes)) = 0 := by
        refine hz.mpr ?_
        intro c hc
        by_cases hc2 : c.2
        · simp [hc2]
        · simp only [Bool.not_eq_true] at hc2
          have := hall c hc hc2
          simp [hc2, this]
      omega

/-- Witness for C3: window `[11, 99]`, both cells unmasked; the total is 2
while the class counts sum to 1 because 99 is not an enumerated code. -/
theorem featureStats_count_conservation_witness :
    (mkFeatureStats 0 1 [11, 99] [false, false]).c11
        + (mkFeatureStats 0 1 [11, 99] [false, false]).c12
        + (mkFeatureStats 0 1 [11, 99] [false, false]).c21
        + (mkFeatureStats 0 1 [11, 99] [false, false]).c22
        + (mkFeatureStats 0 1 [11, 99] [false, false]).c23
        + (mkFeatureStats 0 1 [11, 99] [false, false]).c24
        + (mkFeatureStats 0 1 [11, 99] [false, false]).c31
        + (mkFeatureStats 0 1 [11, 99] [false, false]).c41
        + (mkFeatureStats 0 1 [11, 99] [false, false]).c42
        + (mkFeatureStats 0 1 [11, 99] [false, false]).c43
        + (mkFeatureStats 0 1 [11, 99] [false, false]).c51
        + (mkFeatureStats 0 1 [11, 99] [false, false]).c52
        + (mkFeatureStats 0 1 [11, 99] [false, false]).c71
        + (mkFeatureStats 0 1 [11, 99] [false, false]).c72
        + (mkFeatureStats 0 1 [11, 99] [false, false]).c73
        + (mkFeatureStats 0 1 [11, 99] [false, false]).c74
        + (mkFeatureStats 0 1 [11, 99] [false, false]).c81
        + (mkFeatureStats 0 1 [11, 99] [false, false]).c82
        + (mkFeatureStats 0 1 [11, 99] [false, false]).c90
        + (mkFeatureStats 0 1 [11, 99] [false, false]).c95
      ≤ (mkFeatureStats 0 1 [11, 99] [false, false]).TotalPixels :=
  (featureStats_count_conservation 0 1 [11, 99] [false, false]).1

/-- C4.  The grouped aggregates of `get_nlcd_counts` equal the sums of their
constituent subclass counts, for every input window and mask. -/
theorem nlcd_group_sums (fid hydro : ℤ) (src : List ℚ) (excl : List Bool) :
    (get_nlcd_counts fid hydro src excl).lulc_1
        = (get_nlcd_counts fid hydro src excl).lulc_11
          + (get_nlcd_counts fid hydro src excl).lulc_12
    ∧ (get_nlcd_counts fid hydro src excl).lulc_2
        = (get_nlcd_counts fid hydro src excl).lulc_21
          + (get_nlcd_counts fid hydro src excl).lulc_22
          + (get_nlcd_counts fid hydro src excl).lulc_23
          + (get_nlcd_counts fid hydro src excl).lulc_24
    ∧ (get_nlcd_counts fid hydro src excl).lulc_3
        = (get_nlcd_counts fid hydro src excl).lulc_31
    ∧ (get_nlcd_counts fid hydro src excl).lulc_4
        = (get_nlcd_counts fid hydro src excl).lulc_41
          + (get_nlcd_counts fid hydro src excl).lulc_42
          + (get_nlcd_counts fid hydro src excl).lulc_43
    ∧ (get_nlcd_counts fid hydro src excl).lulc_5
        = (get_nlcd_counts fid hydro src excl).lulc_51
          + (get_nlcd_counts fid hydro src excl).lulc_52
    ∧ (get_nlcd_counts fid hydro src excl).lulc_7
        = (get_nlcd_counts fid hydro src excl).lulc_71
          + (get_nlcd_counts fid hydro src excl).lulc_72
          + (get_nlcd_counts fid hydro src excl).lulc_73
          + (get_nlcd_counts fid hydro src excl).lulc_74
    ∧ (get_nlcd_counts fid hydro src excl).lulc_8
        = (get_nlcd_counts fid hydro src excl).lulc_81
          + (get_nlcd_counts fid hydro src excl).lulc_82
    ∧ (get_nlcd_counts fid hydro src excl).lulc_9
        = (get_nlcd_counts fid hydro src excl).lulc_90
          + (get_nlcd_counts fid hydro src excl).lulc_95 :=
  ⟨rfl, rfl, rfl, rfl, rfl, rfl, rfl, rfl⟩

/-! The orchestrator: `zonal_stats`. -/

/-- A single-band raster source as opened by `gdal.Open` plus
`GetRasterBand(1)`: pixel dimensions, geotransform, and the band's cell
values indexed by (column, row). -/
structure Raster where
  xSize : ℕ
  ySize : ℕ
  gt : GeoTransform
  value : ℤ → ℤ → ℚ

/-- Row-major cell index list of a w-by-h window (the flattening of a
numpy 2-D array of that shape). -/
def winIdx (w h : ℤ) : List (ℕ × ℕ) :=
  (List.range h.toNat).flatMap fun j => (List.range w.toNat).map fun i => (i, j)

/-- The pixel values delivered by a successful
`rb.ReadAsArray(x1, y1, w, h)`, row-major. -/
def readWindow (r : Raster) (x1 y1 w h : ℤ) : List ℚ :=
  (winIdx w h).map fun ij => r.value (x1 + ij.1) (y1 + ij.2)

/-- The access-window condition under which GDAL `RasterIO` (hence
`ReadAsArray`) succeeds: positive sizes and a window fully inside the
raster. -/
def windowInBounds (r : Raster) (x1 y1 w h : ℤ) : Prop :=
  0 ≤ x1 ∧ 0 ≤ y1 ∧ 0 < w ∧ 0 < h ∧ x1 + w ≤ r.xSize ∧ y1 + h ≤ r.ySize

instance (r : Raster) (x1 y1 w h : ℤ) :
    Decidable (windowInBounds r x1 y1 w h) := by
  unfold windowInBounds
  infer_instance

/-- `rb.ReadAsArray(x1, y1, w, h)`: `none` models GDAL returning `None`
(access window out of range or illegal buffer size), after which the Python
script crashes when constructing the masked array. -/
def readAsArray (r : Raster) (x1 y1 w h : ℤ) : Option (List ℚ) :=
  if windowInBounds r x1 y1 w h then some (readWindow r x1 y1 w h) else none

/-- A vector feature as consumed by `zonal_stats`: FID, the optional
HydroID attribute (`none` models a feature lacking the field, on which
`feat.GetField('HydroID')` raises), the geometry envelope
(minX, maxX, minY, maxY), and the polygon's pixel-center coverage
predicate over geographic coordinates. -/
structure Feature where
  fid : ℤ
  hydroID : Option ℤ
  envMinX : ℚ
  envMaxX : ℚ
  envMinY : ℚ
  envMaxY : ℚ
  covers : ℚ → ℚ → Bool

/-- `feat.geometry().GetEnvelope()`, in OGR order (minX, maxX, minY, maxY). -/
def Feature.envelope (f : Feature) : ℚ × ℚ × ℚ × ℚ :=
  (f.envMinX, f.envMaxX, f.envMinY, f.envMaxY)

/-- The `new_gt` subset geotransform computed in `zonal_stats`:
origin translated by the window offset, rotation zeroed, pixel sizes kept. -/
def subsetGT (rgt : GeoTransform) (x1 y1 : ℤ) : GeoTransform :=
  ⟨rgt.originX + (x1 : ℚ) * rgt.pixelWidth, rgt.pixelWidth, 0,
   rgt.originY + (y1 : ℚ) * rgt.pixelHeight, 0, rgt.pixelHeight⟩

/-- Modelled from the spec: `gdal.RasterizeLayer` (an external GDAL call,
not part of this repository's sources) burns the polygon into a w-by-h
byte raster with geotransform `ngt`; following spec section 4.3 the
resulting coverage mask is true where the pixel center lies inside the
polygon. -/
def rasterizeWindow (cov : ℚ → ℚ → Bool) (ngt : GeoTransform) (w h : ℤ) :
    List Bool :=
  (winIdx w h).map fun ij =>
    cov (ngt.originX + ((ij.1 : ℚ) + 1/2) * ngt.pixelWidth)
        (ngt.originY + ((ij.2 : ℚ) + 1/2) * ngt.pixelHeight)

/-- The per-feature body of the `zonal_stats` loop, after the current
source window is available: rasterize the feature over the window,
composite the exclusion mask, read the HydroID attribute (raising if
absent), and build the `feature_stats` record. -/
def processFeature (nodata : Option ℚ) (src : List ℚ) (ngt : GeoTransform)
    (w h : ℤ) (feat : Feature) : Except String FeatureStats :=
  let rv := rasterizeWindow feat.covers ngt w h
  let excl := excludedMask nodata src rv
  match feat.hydroID with
  | none => Except.error "GetField: missing HydroID"
  | some hydro => Except.ok (mkFeatureStats feat.fid hydro src excl)

/-- One iteration of the loop in local-extent mode: compute this feature's
pixel window, read it from the raster band (one read; a failure crashes the
run), then process the feature. -/
def processLocal (r : Raster) (nodata : Option ℚ) (feat : Feature) :
    Except String (FeatureStats × ℕ) :=
  let so := bbox_to_pixel_offsets r.gt feat.envelope
  match readAsArray r so.1 so.2.1 so.2.2.1 so.2.2.2 with
  | none => Except.error "ReadAsArray failed"
  | some src =>
    match processFeature nodata src (subsetGT r.gt so.1 so.2.1)
        so.2.2.1 so.2.2.2 feat with
    | Except.error e => Except.error e
    | Except.ok st => Except.ok (st, 1)

/-- The `while feat is not None` loop: process features in iteration
order, collecting the `feature_stats` records (and summing raster reads);
a raised exception aborts the whole run with no partial output. -/
def zonalLoop (step : Feature → Except String (FeatureStats × ℕ)) :
    List Feature → Except String (List FeatureStats × ℕ)
  | [] => Except.ok ([], 0)
  | f :: fs =>
    match step f with
    | Except.error e => Except.error e
    | Except.ok (st, n) =>
      match zonalLoop step fs with
      | Except.error e => Except.error e
      | Except.ok (sts, m) => Except.ok (st :: sts, n + m)

/-- Modelled from the spec: `vlyr.GetExtent()` (an external OGR call) is
the bounding box covering all feature envelopes, in (minX, maxX, minY,
maxY) order; OGR reports (0, 0, 0, 0) for an empty layer. -/
def layerExtent : List Feature → ℚ × ℚ × ℚ × ℚ
  | [] => (0, 0, 0, 0)
  | f :: fs =>
    (fs.foldl (fun a g => min a g.envMinX) f.envMinX,
     fs.foldl (fun a g => max a g.envMaxX) f.envMaxX,
     fs.foldl (fun a g => min a g.envMinY) f.envMinY,
     fs.foldl (fun a g => max a g.envMaxY) f.envMaxY)

/-- One iteration of the loop in global-extent mode: the pre-read window
result `src_opt` (possibly `None` when the hull read failed, as the script
stores it without checking) is consulted only here, inside the loop body;
a `None` crashes at the masked-array construction for this feature.  No
raster read happens per feature. -/
def processGlobal (nodata : Option ℚ) (src_opt : Option (List ℚ))
    (ngt : GeoTransform) (w h : ℤ) (feat : Feature) :
    Except String (FeatureStats × ℕ) :=
  match src_opt with
  | none => Except.error "MaskedArray: mask and data not compatible"
  | some src => (processFeature nodata src ngt w h feat).map fun st => (st, 0)

/-- `zonal_stats(vector_path, raster_path, nodata_value,
global_src_extent)`: returns the ordered `feature_stats` records paired
with the number of raster read operations performed; `Except.error` models
a Python exception aborting the run.  In global-extent mode one window
covering the layer extent is read up front and reused for every feature;
in local-extent mode (the default) each feature reads its own window.
A failed global read is not an immediate abort: the script stores the
`None` result and only crashes inside the loop body, when the masked
array is built for a feature, so an empty layer still returns `[]`. -/
def zonal_stats (r : Raster) (feats : List Feature) (nodata : Option ℚ)
    (global_src_extent : Bool) : Except String (List FeatureStats × ℕ) :=
  if global_src_extent then
    let so := bbox_to_pixel_offsets r.gt (layerExtent feats)
    let src_opt := readAsArray r so.1 so.2.1 so.2.2.1 so.2.2.2
    match zonalLoop
        (processGlobal nodata src_opt (subsetGT r.gt so.1 so.2.1)
          so.2.2.1 so.2.2.2) feats with
    | Except.error e => Except.error e
    | Except.ok (sts, n) => Except.ok (sts, 1 + n)
  else
    zonalLoop (processLocal r nodata) feats


/-! Loop lemmas for the orchestrator claims. -/

lemma zonal_stats_local_def (r : Raster) (feats : List Feature)
    (nodata : Option ℚ) :
    zonal_stats r feats nodata false
      = zonalLoop (processLocal r nodata) feats := rfl

lemma zonal_stats_global_def (r : Raster) (feats : List Feature)
    (nodata : Option ℚ) :
    zonal_stats r feats nodata true
      = (let so := bbox_to_pixel_offsets r.gt (layerExtent feats)
         match zonalLoop
             (processGlobal nodata
               (readAsArray r so.1 so.2.1 so.2.2.1 so.2.2.2)
               (subsetGT r.gt so.1 so.2.1) so.2.2.1 so.2.2.2) feats with
         | Except.error e => Except.error e
         | Except.ok (sts, n) => Except.ok (sts, 1 + n)) := rfl

lemma processFeature_ok (nodata : Option ℚ) (src : List ℚ)
    (ngt : GeoTransform) (w h : ℤ) (feat : Feature) (st : FeatureStats)
    (hok : processFeature nodata src ngt w h feat = Except.ok st) :
    ∃ hy, feat.hydroID = some hy
      ∧ st = mkFeatureStats feat.fid hy src
          (excludedMask nodata src (rasterizeWindow feat.covers ngt w h)) := by
  unfold processFeature at hok
  cases hh : feat.hydroID with
  | none => rw [hh] at hok; cases hok
  | some hy =>
    rw [hh] at hok
    refine ⟨hy, rfl, ?_⟩
    cases hok
    rfl

lemma processLocal_ok (r : Raster) (nodata : Option ℚ) (feat : Feature)
    (st : FeatureStats) (n : ℕ)
    (hok : processLocal r nodata feat = Except.ok (st, n)) :
    st.FID = feat.fid ∧ feat.hydroID = some st.HydroID := by
  unfold processLocal at hok
  dsimp only at hok
  split at hok
  · simp at hok
  next src hread =>
    split at hok
    · simp at hok
    next st2 hpf =>
      cases hok
      rcases processFeature_ok _ _ _ _ _ _ _ hpf with ⟨hy, hhy, hst⟩
      subst hst
      exact ⟨rfl, hhy⟩

lemma processGlobal_ok (nodata : Option ℚ) (src_opt : Option (List ℚ))
    (ngt : GeoTransform) (w h : ℤ) (feat : Feature) (st : FeatureStats)
    (n : ℕ)
    (hok : processGlobal nodata src_opt ngt w h feat = Except.ok (st, n)) :
    st.FID = feat.fid ∧ feat.hydroID = some st.HydroID := by
  cases src_opt with
  | none => simp [processGlobal] at hok
  | some src =>
    simp only [processGlobal] at hok
    cases hp : processFeature nodata src ngt w h feat with
    | error e => rw [hp] at hok; simp [Except.map] at hok
    | ok st2 =>
      rw [hp] at hok
      simp only [Except.map] at hok
      cases hok
      rcases processFeature_ok _ _ _ _ _ _ _ hp with ⟨hy, hhy, hst⟩
      subst hst
      exact ⟨rfl, hhy⟩

lemma zonalLoop_length_fid (step : Feature → Except String (FeatureStats × ℕ))
    (hstep : ∀ f st n, step f = Except.ok (st, n) →
      st.FID = f.fid ∧ f.hydroID = some st.HydroID) :
    ∀ (feats : List Feature) (out : List FeatureStats × ℕ),
      zonalLoop step feats = Except.ok out →
      out.1.length = feats.length ∧
      ∀ i (h1 : i < out.1.length) (h2 : i < feats.length),
        (out.1.get ⟨i, h1⟩).FID = (feats.get ⟨i, h2⟩).fid
        ∧ (feats.get ⟨i, h2⟩).hydroID = some (out.1.get ⟨i, h1⟩).HydroID := by
  intro feats
  induction feats with
  | nil =>
    intro out hout
    unfold zonalLoop at hout
    cases hout
    exact ⟨rfl, fun i h1 h2 => absurd h2 (by simp)⟩
  | cons f fs ih =>
    intro out hout
    unfold zonalLoop at hout
    split at hout
    · simp at hout
    next st n hs =>
      split at hout
      · simp at hout
      next sts m hl =>
        cases hout
        rcases ih (sts, m) hl with ⟨ihlen, ihidx⟩
        refine ⟨by simpa using ihlen, ?_⟩
        intro i h1 h2
        cases i with
        | zero => simpa using hstep f st n hs
        | succ k =>
          simp only [List.get_eq_getElem, List.getElem_cons_succ]
          have hk1 : k < sts.length := by simpa using h1
          have hk2 : k < fs.length := by simpa using h2
          simpa using ihidx k hk1 hk2

lemma zonalLoop_mem_ok (step : Feature → Except String (FeatureStats × ℕ)) :
    ∀ (feats : List Feature) (out : List FeatureStats × ℕ),
      zonalLoop step feats = Except.ok out →
      ∀ f ∈ feats, ∃ stn, step f = Except.ok stn := by
  intro feats
  induction feats with
  | nil =>
    intro out _ f hf
    exact absurd hf (by simp)
  | cons g fs ih =>
    intro out hout f hf
    unfold zonalLoop at hout
    split at hout
    · simp at hout
    next st n hs =>
      split at hout
      · simp at hout
      next sts m hl =>
        rcases List.mem_cons.mp hf with hfg | hmem
        · subst hfg; exact ⟨(st, n), hs⟩
        · exact ih (sts, m) hl f hmem

/-- C10.  In local-extent mode, a run over an empty feature collection
returns the empty record list, performs zero raster reads, and raises no
error. -/
theorem zonal_stats_empty_local (r : Raster) (nodata : Option ℚ) :
    zonal_stats r [] nodata false = Except.ok ([], 0) := rfl

/-- C6.  Every successful run returns exactly one record per feature, in
feature iteration order: the i-th output record carries the i-th feature's
FID and HydroID. -/
theorem zonal_stats_order (r : Raster) (feats : List Feature)
    (nodata : Option ℚ) (mode : Bool) (out : List FeatureStats × ℕ)
    (hok : zonal_stats r feats nodata mode = Except.ok out) :
    out.1.length = feats.length ∧
    ∀ i (h1 : i < out.1.length) (h2 : i < feats.length),
      (out.1.get ⟨i, h1⟩).FID = (feats.get ⟨i, h2⟩).fid
      ∧ (feats.get ⟨i, h2⟩).hydroID = some (out.1.get ⟨i, h1⟩).HydroID := by
  cases mode with
  | false =>
    rw [zonal_stats_local_def] at hok
    exact zonalLoop_length_fid _
      (fun f st n hs => processLocal_ok r nodata f st n hs) feats out hok
  | true =>
    rw [zonal_stats_global_def] at hok
    dsimp only at hok
    split at hok
    · simp at hok
    next sts m hl =>
      cases hok
      have := zonalLoop_length_fid _
        (fun f st n hs => processGlobal_ok nodata _ _ _ _ f st n hs)
        feats (sts, m) hl
      exact this

/-- C9.  If any feature lacks the HydroID attribute, the whole run errors:
no output sequence (not even a partial one) is returned, in either extent
mode. -/
theorem zonal_stats_missing_hydro (r : Raster) (feats : List Feature)
    (nodata : Option ℚ) (mode : Bool) (f : Feature) (hf : f ∈ feats)
    (hmiss : f.hydroID = none) :
    ∀ out, zonal_stats r feats nodata mode ≠ Except.ok out := by
  intro out hok
  cases mode with
  | false =>
    rw [zonal_stats_local_def] at hok
    rcases zonalLoop_mem_ok _ feats out hok f hf with ⟨⟨st, n⟩, hs⟩
    rcases processLocal_ok r nodata f st n hs with ⟨_, hsome⟩
    rw [hmiss] at hsome
    cases hsome
  | true =>
    rw [zonal_stats_global_def] at hok
    dsimp only at hok
    split at hok
    · simp at hok
    next sts m hl =>
      rcases zonalLoop_mem_ok _ feats (sts, m) hl f hf with ⟨⟨st, n⟩, hs⟩
      rcases processGlobal_ok nodata _ _ _ _ f st n hs with ⟨_, hsome⟩
      rw [hmiss] at hsome
      cases hsome

/-! Concrete inputs for the orchestrator witnesses and failing runs. -/

/-- A 2-by-2 north-up raster at origin (0, 2), every cell 21. -/
def rasterW : Raster := ⟨2, 2, ⟨0, 1, 0, 2, 0, -1⟩, fun _ _ => 21⟩

/-- A feature whose envelope maps to the in-bounds window (0, 0, 1, 2). -/
def featW : Feature := ⟨5, some 3, 0, 1/2, 1, 2, fun _ _ => true⟩

/-- The record produced for `featW` over `rasterW`. -/
def statW : FeatureStats :=
  ⟨5, 3, 2, 0, 0, 2, 0, 0, 0, 0, 0, 0, 0, 0, 0, 0, 0, 0, 0, 0, 0, 0, 0⟩

/-- Witness for C6: a concrete successful one-feature run returning exactly
one record, in order. -/
theorem zonal_stats_order_witness :
    zonal_stats rasterW [featW] none false = Except.ok ([statW], 1)
    ∧ (([statW], 1) : List FeatureStats × ℕ).1.length = [featW].length :=
  have hok : zonal_stats rasterW [featW] none false
      = Except.ok ([statW], 1) := by
    with_unfolding_all rfl
  ⟨hok, (zonal_stats_order rasterW [featW] none false ([statW], 1) hok).1⟩

/-- Witness for C9: running over a feature list containing one feature
without a HydroID attribute never returns a result. -/
theorem zonal_stats_missing_hydro_witness :
    (⟨5, none, 0, 1/2, 1, 2, fun _ _ => true⟩ : Feature)
        ∈ [(⟨5, none, 0, 1/2, 1, 2, fun _ _ => true⟩ : Feature)]
    ∧ (⟨5, none, 0, 1/2, 1, 2, fun _ _ => true⟩ : Feature).hydroID = none
    ∧ ∀ out, zonal_stats rasterW
        [⟨5, none, 0, 1/2, 1, 2, fun _ _ => true⟩] none false
        ≠ Except.ok out :=
  ⟨List.mem_singleton.mpr rfl, rfl,
    zonal_stats_missing_hydro rasterW _ none false _
      (List.mem_singleton.mpr rfl) rfl⟩

/-- A 10-by-10 north-up raster at origin (0, 10), every cell 21
(the raster of spec scenarios 1 to 3). -/
def raster10 : Raster := ⟨10, 10, ⟨0, 1, 0, 10, 0, -1⟩, fun _ _ => 21⟩

/-- A feature whose bounding box lies entirely outside the raster extent
of `raster10`. -/
def featOutside : Feature := ⟨0, some 7, 20, 21, 20, 21, fun _ _ => false⟩

/-- C7 (behaviour of the source at the claimed input).  For a polygon
whose bounding box lies entirely outside the raster extent, the computed
window (20, -11, 2, 2) is out of bounds, the band read fails, and the run
aborts with an error instead of emitting an all-zero record. -/
theorem zonal_stats_out_of_extent_crashes :
    zonal_stats raster10 [featOutside] none false
      = Except.error "ReadAsArray failed" := by
  with_unfolding_all rfl

/-- A polygon exactly covering the full extent of `raster10`. -/
def featFullExtent : Feature :=
  ⟨0, some 7, 0, 10, 0, 10,
   fun x y => decide (0 ≤ x) && decide (x ≤ 10) && decide (0 ≤ y)
     && decide (y ≤ 10)⟩

/-- C8 (behaviour of the source at the claimed input).  For the 10-by-10
raster filled with 21, no-data 21, and one polygon exactly covering the
full raster extent, the `+1` padding makes the computed window
(0, 0, 11, 11) exceed the raster, the band read fails, and the run aborts
with an error instead of producing a record with zero counts. -/
theorem zonal_stats_full_extent_crashes :
    zonal_stats raster10 [featFullExtent] (some 21) false
      = Except.error "ReadAsArray failed" := by
  with_unfolding_all rfl


/-! Counting infrastructure for the extent-mode equivalence (C5). -/

/-- Count of window cells satisfying a predicate on global pixel indices. -/
def winCount (x1 y1 w h : ℤ) (P : ℤ → ℤ → Bool) : ℕ :=
  (winIdx w h).countP fun ij : ℕ × ℕ => P (x1 + (ij.1 : ℤ)) (y1 + (ij.2 : ℤ))

/-- Count over one pixel row segment. -/
def rowCount (x1 w : ℤ) (Q : ℤ → Bool) : ℕ :=
  (List.range w.toNat).countP fun i : ℕ => Q (x1 + (i : ℤ))

/-- Sum of a cost function over a segment of row indices. -/
def rowSum (y1 h : ℤ) (F : ℤ → ℕ) : ℕ :=
  ((List.range h.toNat).map fun j : ℕ => F (y1 + (j : ℤ))).sum

lemma winCount_rows (x1 y1 w h : ℤ) (P : ℤ → ℤ → Bool) :
    winCount x1 y1 w h P
      = rowSum y1 h fun q => rowCount x1 w fun p => P p q := by
  unfold winCount winIdx rowSum rowCount
  rw [List.flatMap_def, List.countP_flatten, List.map_map]
  refine congrArg List.sum (List.map_congr_left ?_)
  intro j _
  simp only [Function.comp_apply, List.countP_map]
  rfl

lemma rowCount_eq_zero (x1 w : ℤ) (Q : ℤ → Bool)
    (h : ∀ p, x1 ≤ p → p < x1 + w → Q p = false) : rowCount x1 w Q = 0 := by
  unfold rowCount
  rw [List.countP_eq_zero]
  intro i hi
  rw [List.mem_range] at hi
  simp [h (x1 + i) (by omega) (by omega)]

lemma rowCount_shift (x1 w x1' w' : ℤ) (Q : ℤ → Bool)
    (h1 : x1 ≤ x1') (h2 : x1' + w' ≤ x1 + w) (h3 : 0 ≤ w')
    (hsupp : ∀ p, x1 ≤ p → p < x1 + w → Q p = true →
      x1' ≤ p ∧ p < x1' + w') :
    rowCount x1 w Q = rowCount x1' w' Q := by
  have hdec : w.toNat
      = (x1' - x1).toNat + (w'.toNat + (x1 + w - x1' - w').toNat) := by
    omega
  unfold rowCount
  rw [hdec, List.range_add, List.countP_append, List.countP_map,
    List.range_add, List.countP_append, List.countP_map]
  have hz1 : (List.range (x1' - x1).toNat).countP
      (fun i : ℕ => Q (x1 + (i : ℤ))) = 0 := by
    rw [List.countP_eq_zero]
    intro i hi
    rw [List.mem_range] at hi
    intro hq
    have := hsupp (x1 + i) (by omega) (by omega) hq
    omega
  have hz3 : (List.range (x1 + w - x1' - w').toNat).countP
      (fun i : ℕ => Q (x1 + (((x1' - x1).toNat + (w'.toNat + i) : ℕ) : ℤ)))
      = 0 := by
    rw [List.countP_eq_zero]
    intro i hi
    rw [List.mem_range] at hi
    intro hq
    have := hsupp (x1 + (((x1' - x1).toNat + (w'.toNat + i) : ℕ) : ℤ))
      (by push_cast; omega) (by push_cast; omega) hq
    revert this
    push_cast
    omega
  have hm : (List.range w'.toNat).countP
        (fun i : ℕ => Q (x1 + (((x1' - x1).toNat + i : ℕ) : ℤ)))
      = (List.range w'.toNat).countP fun i : ℕ => Q (x1' + (i : ℤ)) := by
    refine List.countP_congr ?_
    intro i _
    rw [show x1 + (((x1' - x1).toNat + i : ℕ) : ℤ) = x1' + (i : ℤ) by
      push_cast
      omega]
  rw [hz1]
  simp only [Function.comp_def]
  rw [hm, hz3]
  omega

lemma rowSum_eq_zero (y1 h : ℤ) (F : ℤ → ℕ)
    (hz : ∀ q, y1 ≤ q → q < y1 + h → F q = 0) : rowSum y1 h F = 0 := by
  unfold rowSum
  refine List.sum_eq_zero ?_
  intro x hx
  rcases List.mem_map.mp hx with ⟨j, hj, hxj⟩
  rw [List.mem_range] at hj
  rw [← hxj]
  exact hz (y1 + j) (by omega) (by omega)

lemma rowSum_shift (y1 h y1' h' : ℤ) (F : ℤ → ℕ)
    (h1 : y1 ≤ y1') (h2 : y1' + h' ≤ y1 + h) (h3 : 0 ≤ h')
    (hsupp : ∀ q, y1 ≤ q → q < y1 + h → F q ≠ 0 →
      y1' ≤ q ∧ q < y1' + h') :
    rowSum y1 h F = rowSum y1' h' F := by
  have hdec : h.toNat
      = (y1' - y1).toNat + (h'.toNat + (y1 + h - y1' - h').toNat) := by
    omega
  unfold rowSum
  rw [hdec, List.range_add, List.map_append, List.sum_append, List.map_map,
    List.range_add, List.map_append, List.map_map, List.sum_append]
  simp only [Function.comp_def]
  have hz1 : ((List.range (y1' - y1).toNat).map
      (fun j : ℕ => F (y1 + (j : ℤ)))).sum = 0 := by
    refine List.sum_eq_zero ?_
    intro x hx
    rcases List.mem_map.mp hx with ⟨j, hj, hxj⟩
    rw [List.mem_range] at hj
    by_contra hne
    have hFne : F (y1 + (j : ℤ)) ≠ 0 := by omega
    have := hsupp (y1 + j) (by omega) (by omega) hFne
    omega
  have hz3 : ((List.range (y1 + h - y1' - h').toNat).map
      (fun j : ℕ =>
        F (y1 + (((y1' - y1).toNat + (h'.toNat + j) : ℕ) : ℤ)))).sum = 0 := by
    refine List.sum_eq_zero ?_
    intro x hx
    rcases List.mem_map.mp hx with ⟨j, hj, hxj⟩
    rw [List.mem_range] at hj
    by_contra hne
    have hFne : F (y1 + (((y1' - y1).toNat + (h'.toNat + j) : ℕ) : ℤ))
        ≠ 0 := by omega
    have := hsupp (y1 + (((y1' - y1).toNat + (h'.toNat + j) : ℕ) : ℤ))
      (by push_cast; omega) (by push_cast; omega) hFne
    revert this
    push_cast
    omega
  have hm : ((List.range h'.toNat).map
        (fun j : ℕ => F (y1 + (((y1' - y1).toNat + j : ℕ) : ℤ)))).sum
      = ((List.range h'.toNat).map fun j : ℕ => F (y1' + (j : ℤ))).sum := by
    refine congrArg List.sum (List.map_congr_left ?_)
    intro j _
    rw [show y1 + (((y1' - y1).toNat + j : ℕ) : ℤ) = y1' + (j : ℤ) by
      push_cast
      omega]
  rw [hz1, hm, hz3]
  omega

lemma winCount_shift (x1 y1 w h x1' y1' w' h' : ℤ) (P : ℤ → ℤ → Bool)
    (hx1 : x1 ≤ x1') (hy1 : y1 ≤ y1')
    (hx2 : x1' + w' ≤ x1 + w) (hy2 : y1' + h' ≤ y1 + h)
    (hw : 0 ≤ w') (hh : 0 ≤ h')
    (hsupp : ∀ p q, x1 ≤ p → p < x1 + w → y1 ≤ q → q < y1 + h →
      P p q = true →
      x1' ≤ p ∧ p < x1' + w' ∧ y1' ≤ q ∧ q < y1' + h') :
    winCount x1 y1 w h P = winCount x1' y1' w' h' P := by
  rw [winCount_rows, winCount_rows]
  have hstep : rowSum y1 h (fun q => rowCount x1 w fun p => P p q)
      = rowSum y1' h' (fun q => rowCount x1 w fun p => P p q) := by
    refine rowSum_shift y1 h y1' h' _ hy1 hy2 hh ?_
    intro q hq1 hq2 hF
    have hex : ∃ p, x1 ≤ p ∧ p < x1 + w ∧ P p q = true := by
      by_contra hno
      refine hF (rowCount_eq_zero x1 w _ ?_)
      intro p hp1 hp2
      by_contra hptrue
      exact hno ⟨p, hp1, hp2, by
        revert hptrue
        cases P p q <;> simp⟩
    rcases hex with ⟨p, hp1, hp2, hP⟩
    have := hsupp p q hp1 hp2 hq1 hq2 hP
    exact ⟨this.2.2.1, this.2.2.2⟩
  rw [hstep]
  unfold rowSum
  refine congrArg List.sum (List.map_congr_left ?_)
  intro j hj
  rw [List.mem_range] at hj
  refine rowCount_shift x1 w x1' w' _ hx1 hx2 hw ?_
  intro p hp1 hp2 hP
  have hjq1 : y1 ≤ y1' + (j : ℤ) := by omega
  have hjq2 : y1' + (j : ℤ) < y1 + h := by omega
  have := hsupp p (y1' + (j : ℤ)) hp1 hp2 hjq1 hjq2 hP
  exact ⟨this.1, this.2.1⟩

/-- Component form of `bbox_to_pixel_offsets`. -/
lemma bbox_def (gt : GeoTransform) (b : ℚ × ℚ × ℚ × ℚ) :
    bbox_to_pixel_offsets gt b
      = (ratTrunc ((b.1 - gt.originX) / gt.pixelWidth),
         ratTrunc ((b.2.2.2 - gt.originY) / gt.pixelHeight),
         ratTrunc ((b.2.1 - gt.originX) / gt.pixelWidth) + 1
           - ratTrunc ((b.1 - gt.originX) / gt.pixelWidth),
         ratTrunc ((b.2.2.1 - gt.originY) / gt.pixelHeight) + 1
           - ratTrunc ((b.2.2.2 - gt.originY) / gt.pixelHeight)) := rfl

/-- Boolean form of the no-data comparison clause of the exclusion mask. -/
def nodataEq (nodata : Option ℚ) (v : ℚ) : Bool :=
  match nodata with
  | some nd => v == nd
  | none => false

/-- Coverage of a polygon at the center of the global source pixel (p, q). -/
def coversCell (gt : GeoTransform) (c : ℚ → ℚ → Bool) (p q : ℤ) : Bool :=
  c (gt.originX + ((p : ℚ) + 1/2) * gt.pixelWidth)
    (gt.originY + ((q : ℚ) + 1/2) * gt.pixelHeight)

/-- An integer whose half-shifted cast sits between `a` and `b` lies in the
truncation window `[ratTrunc a, ratTrunc b]`, provided it is nonnegative. -/
lemma ratTrunc_capture (a b : ℚ) (p : ℤ) (hp : 0 ≤ p)
    (hlo : a ≤ (p : ℚ) + 1/2) (hhi : (p : ℚ) + 1/2 ≤ b) :
    ratTrunc a ≤ p ∧ p < ratTrunc b + 1 := by
  constructor
  · rcases le_or_lt 0 a with ha | ha
    · rw [ratTrunc_eq_floor_of_nonneg ha]
      have hcalc : ⌊a⌋ ≤ p := by
        calc ⌊a⌋ ≤ ⌊(p : ℚ) + 1/2⌋ := Int.floor_le_floor hlo
          _ = p + ⌊(1 : ℚ)/2⌋ := Int.floor_int_add p ((1 : ℚ)/2)
          _ = p := by norm_num
      exact hcalc
    · rw [ratTrunc_eq_ceil_of_neg ha]
      have h0 : ⌈a⌉ ≤ 0 := Int.ceil_le.mpr (by exact_mod_cast ha.le)
      omega
  · rcases le_or_lt 0 b with hb | hb
    · rw [ratTrunc_eq_floor_of_nonneg hb]
      have hpb : p ≤ ⌊b⌋ := Int.le_floor.mpr (by linarith)
      omega
    · exfalso
      have hp0 : (0 : ℚ) ≤ (p : ℚ) := by exact_mod_cast hp
      linarith

/-- Every pixel with nonnegative indices whose center is covered by the
feature's polygon lies inside the feature's own bbox window. -/
lemma coversCell_capture (r : Raster) (f : Feature)
    (hpw : 0 < r.gt.pixelWidth) (hph : r.gt.pixelHeight < 0)
    (hcov : ∀ x y, f.covers x y = true →
      f.envMinX ≤ x ∧ x ≤ f.envMaxX ∧ f.envMinY ≤ y ∧ y ≤ f.envMaxY)
    (p q : ℤ) (hp : 0 ≤ p) (hq : 0 ≤ q)
    (hcv : coversCell r.gt f.covers p q = true) :
    (bbox_to_pixel_offsets r.gt f.envelope).1 ≤ p
    ∧ p < (bbox_to_pixel_offsets r.gt f.envelope).1
        + (bbox_to_pixel_offsets r.gt f.envelope).2.2.1
    ∧ (bbox_to_pixel_offsets r.gt f.envelope).2.1 ≤ q
    ∧ q < (bbox_to_pixel_offsets r.gt f.envelope).2.1
        + (bbox_to_pixel_offsets r.gt f.envelope).2.2.2 := by
  unfold coversCell at hcv
  rcases hcov _ _ hcv with ⟨he1, he2, he3, he4⟩
  rw [bbox_def]
  dsimp only [Feature.envelope]
  have hxlo : (f.envMinX - r.gt.originX) / r.gt.pixelWidth ≤ (p : ℚ) + 1/2 := by
    rw [div_le_iff hpw]
    linarith
  have hxhi : (p : ℚ) + 1/2 ≤ (f.envMaxX - r.gt.originX) / r.gt.pixelWidth := by
    rw [le_div_iff hpw]
    linarith
  have hylo : (f.envMaxY - r.gt.originY) / r.gt.pixelHeight ≤ (q : ℚ) + 1/2 := by
    rw [div_le_iff_of_neg hph]
    linarith
  have hyhi : (q : ℚ) + 1/2 ≤ (f.envMinY - r.gt.originY) / r.gt.pixelHeight := by
    rw [le_div_iff_of_neg hph]
    linarith
  have hx := ratTrunc_capture _ _ p hp hxlo hxhi
  have hy := ratTrunc_capture _ _ q hq hylo hyhi
  refine ⟨hx.1, by omega, hy.1, by omega⟩

/-- The masked counts of a window depend only on the predicate at global
pixel indices: both `masked.count()`-style and per-class counts over a
window read at (x1, y1) reduce to `winCount` of a window-independent
predicate. -/
lemma zip_counts_winCount (r : Raster) (nodata : Option ℚ)
    (c : ℚ → ℚ → Bool) (x1 y1 w h : ℤ) (g : ℚ → Bool) :
    (List.zip (readWindow r x1 y1 w h)
        (excludedMask nodata (readWindow r x1 y1 w h)
          (rasterizeWindow c (subsetGT r.gt x1 y1) w h))).countP
        (fun cc => !cc.2 && g cc.1)
      = winCount x1 y1 w h (fun p q =>
          coversCell r.gt c p q
            && (!(nodataEq nodata (r.value p q)) && g (r.value p q))) := by
  unfold readWindow rasterizeWindow excludedMask winCount
  rw [List.zipWith_map, List.zipWith_same, List.zip_map', List.countP_map]
  refine List.countP_congr ?_
  intro ij _
  simp only [Function.comp_apply]
  have hc : c ((subsetGT r.gt x1 y1).originX
        + ((ij.1 : ℚ) + 1/2) * (subsetGT r.gt x1 y1).pixelWidth)
      ((subsetGT r.gt x1 y1).originY
        + ((ij.2 : ℚ) + 1/2) * (subsetGT r.gt x1 y1).pixelHeight)
      = coversCell r.gt c (x1 + (ij.1 : ℤ)) (y1 + (ij.2 : ℤ)) := by
    unfold coversCell subsetGT
    congr 1 <;> push_cast <;> ring
  rw [hc]
  unfold excludedCell nodataEq
  cases hcv : coversCell r.gt c (x1 + (ij.1 : ℤ)) (y1 + (ij.2 : ℤ)) <;>
    cases nodata <;> simp

/-- `processFeature` gives the same result over any two nested windows, as
long as the bigger one still contains every covered pixel of the smaller
one's feature.  This is the heart of the extent-mode equivalence. -/
lemma processFeature_window_indep (r : Raster) (nodata : Option ℚ)
    (f : Feature) (x1 y1 w h X1 Y1 W H : ℤ)
    (hx1 : X1 ≤ x1) (hy1 : Y1 ≤ y1)
    (hx2 : x1 + w ≤ X1 + W) (hy2 : y1 + h ≤ Y1 + H)
    (hw : 0 ≤ w) (hh : 0 ≤ h)
    (hcapt : ∀ p q, X1 ≤ p → p < X1 + W → Y1 ≤ q → q < Y1 + H →
      coversCell r.gt f.covers p q = true →
      x1 ≤ p ∧ p < x1 + w ∧ y1 ≤ q ∧ q < y1 + h) :
    processFeature nodata (readWindow r X1 Y1 W H) (subsetGT r.gt X1 Y1)
        W H f
      = processFeature nodata (readWindow r x1 y1 w h)
          (subsetGT r.gt x1 y1) w h f := by
  have hfield : ∀ g : ℚ → Bool,
      (List.zip (readWindow r X1 Y1 W H)
          (excludedMask nodata (readWindow r X1 Y1 W H)
            (rasterizeWindow f.covers (subsetGT r.gt X1 Y1) W H))).countP
          (fun cc => !cc.2 && g cc.1)
        = (List.zip (readWindow r x1 y1 w h)
            (excludedMask nodata (readWindow r x1 y1 w h)
              (rasterizeWindow f.covers (subsetGT r.gt x1 y1) w h))).countP
            (fun cc => !cc.2 && g cc.1) := by
    intro g
    rw [zip_counts_winCount, zip_counts_winCount]
    refine winCount_shift X1 Y1 W H x1 y1 w h _ hx1 hy1 hx2 hy2 hw hh ?_
    intro p q hp1 hp2 hq1 hq2 hP
    simp only [Bool.and_eq_true] at hP
    exact hcapt p q hp1 hp2 hq1 hq2 hP.1
  have htot : maskedCount (readWindow r X1 Y1 W H)
        (excludedMask nodata (readWindow r X1 Y1 W H)
          (rasterizeWindow f.covers (subsetGT r.gt X1 Y1) W H))
      = maskedCount (readWindow r x1 y1 w h)
          (excludedMask nodata (readWindow r x1 y1 w h)
            (rasterizeWindow f.covers (subsetGT r.gt x1 y1) w h)) := by
    unfold maskedCount
    have hrw : (fun cc : ℚ × Bool => !cc.2)
        = fun cc : ℚ × Bool => !cc.2 && (fun _ : ℚ => true) cc.1 := by
      funext cc
      simp
    rw [hrw]
    exact hfield fun _ => true
  have hcnt : ∀ code : ℚ,
      countEq (readWindow r X1 Y1 W H)
        (excludedMask nodata (readWindow r X1 Y1 W H)
          (rasterizeWindow f.covers (subsetGT r.gt X1 Y1) W H)) code
      = countEq (readWindow r x1 y1 w h)
          (excludedMask nodata (readWindow r x1 y1 w h)
            (rasterizeWindow f.covers (subsetGT r.gt x1 y1) w h)) code := by
    intro code
    unfold countEq
    exact hfield fun v => v == code
  unfold processFeature
  cases hhy : f.hydroID with
  | none => rfl
  | some hy =>
    refine congrArg Except.ok ?_
    unfold mkFeatureStats
    rw [htot]
    simp only [hcnt]

/-! Bounding-box hull lemmas for the layer extent. -/

lemma foldl_minBy_le_init {α : Type} (k : α → ℚ) (l : List α) (a : ℚ) :
    l.foldl (fun b g => min b (k g)) a ≤ a := by
  induction l generalizing a with
  | nil => exact le_refl a
  | cons x xs ih => exact le_trans (ih (min a (k x))) (min_le_left _ _)

lemma foldl_minBy_le_mem {α : Type} (k : α → ℚ) :
    ∀ (l : List α) (a : ℚ) (x : α), x ∈ l →
      l.foldl (fun b g => min b (k g)) a ≤ k x := by
  intro l
  induction l with
  | nil => intro a x hx; cases hx
  | cons y ys ih =>
    intro a x hx
    rcases List.mem_cons.mp hx with rfl | hmem
    · exact le_trans (foldl_minBy_le_init k ys _) (min_le_right _ _)
    · exact ih _ x hmem

lemma foldl_minBy_choice {α : Type} (k : α → ℚ) :
    ∀ (l : List α) (a : ℚ),
      l.foldl (fun b g => min b (k g)) a = a
      ∨ ∃ x ∈ l, l.foldl (fun b g => min b (k g)) a = k x := by
  intro l
  induction l with
  | nil => intro a; exact Or.inl rfl
  | cons y ys ih =>
    intro a
    rcases ih (min a (k y)) with h | ⟨x, hx, hfx⟩
    · rcases min_choice a (k y) with hm | hm
      · exact Or.inl (h.trans hm)
      · exact Or.inr ⟨y, List.mem_cons_self y ys, h.trans hm⟩
    · exact Or.inr ⟨x, List.mem_cons_of_mem y hx, hfx⟩

lemma foldl_maxBy_ge_init {α : Type} (k : α → ℚ) (l : List α) (a : ℚ) :
    a ≤ l.foldl (fun b g => max b (k g)) a := by
  induction l generalizing a with
  | nil => exact le_refl a
  | cons x xs ih => exact le_trans (le_max_left _ _) (ih (max a (k x)))

lemma foldl_maxBy_ge_mem {α : Type} (k : α → ℚ) :
    ∀ (l : List α) (a : ℚ) (x : α), x ∈ l →
      k x ≤ l.foldl (fun b g => max b (k g)) a := by
  intro l
  induction l with
  | nil => intro a x hx; cases hx
  | cons y ys ih =>
    intro a x hx
    rcases List.mem_cons.mp hx with rfl | hmem
    · exact le_trans (le_max_right _ _) (foldl_maxBy_ge_init k ys _)
    · exact ih _ x hmem

lemma foldl_maxBy_choice {α : Type} (k : α → ℚ) :
    ∀ (l : List α) (a : ℚ),
      l.foldl (fun b g => max b (k g)) a = a
      ∨ ∃ x ∈ l, l.foldl (fun b g => max b (k g)) a = k x := by
  intro l
  induction l with
  | nil => intro a; exact Or.inl rfl
  | cons y ys ih =>
    intro a
    rcases ih (max a (k y)) with h | ⟨x, hx, hfx⟩
    · rcases max_choice a (k y) with hm | hm
      · exact Or.inl (h.trans hm)
      · exact Or.inr ⟨y, List.mem_cons_self y ys, h.trans hm⟩
    · exact Or.inr ⟨x, List.mem_cons_of_mem y hx, hfx⟩

lemma layerExtent_cons (f0 : Feature) (fs : List Feature) :
    layerExtent (f0 :: fs)
      = (fs.foldl (fun a g => min a g.envMinX) f0.envMinX,
         fs.foldl (fun a g => max a g.envMaxX) f0.envMaxX,
         fs.foldl (fun a g => min a g.envMinY) f0.envMinY,
         fs.foldl (fun a g => max a g.envMaxY) f0.envMaxY) := rfl

/-- The layer-extent window contains every feature's own window. -/
lemma hull_sub (r : Raster) (f0 : Feature) (fs : List Feature)
    (hpw : 0 < r.gt.pixelWidth) (hph : r.gt.pixelHeight < 0) :
    ∀ f ∈ f0 :: fs,
      (bbox_to_pixel_offsets r.gt (layerExtent (f0 :: fs))).1
          ≤ (bbox_to_pixel_offsets r.gt f.envelope).1
      ∧ (bbox_to_pixel_offsets r.gt (layerExtent (f0 :: fs))).2.1
          ≤ (bbox_to_pixel_offsets r.gt f.envelope).2.1
      ∧ (bbox_to_pixel_offsets r.gt f.envelope).1
            + (bbox_to_pixel_offsets r.gt f.envelope).2.2.1
          ≤ (bbox_to_pixel_offsets r.gt (layerExtent (f0 :: fs))).1
            + (bbox_to_pixel_offsets r.gt (layerExtent (f0 :: fs))).2.2.1
      ∧ (bbox_to_pixel_offsets r.gt f.envelope).2.1
            + (bbox_to_pixel_offsets r.gt f.envelope).2.2.2
          ≤ (bbox_to_pixel_offsets r.gt (layerExtent (f0 :: fs))).2.1
            + (bbox_to_pixel_offsets r.gt (layerExtent (f0 :: fs))).2.2.2 := by
  intro f hf
  rw [bbox_def, bbox_def, layerExtent_cons]
  dsimp only [Feature.envelope]
  have hminX : fs.foldl (fun a g => min a g.envMinX) f0.envMinX
      ≤ f.envMinX := by
    rcases List.mem_cons.mp hf with rfl | hmem
    · exact foldl_minBy_le_init _ fs _
    · exact foldl_minBy_le_mem _ fs _ f hmem
  have hmaxX : f.envMaxX
      ≤ fs.foldl (fun a g => max a g.envMaxX) f0.envMaxX := by
    rcases List.mem_cons.mp hf with rfl | hmem
    · exact foldl_maxBy_ge_init _ fs _
    · exact foldl_maxBy_ge_mem _ fs _ f hmem
  have hminY : fs.foldl (fun a g => min a g.envMinY) f0.envMinY
      ≤ f.envMinY := by
    rcases List.mem_cons.mp hf with rfl | hmem
    · exact foldl_minBy_le_init _ fs _
    · exact foldl_minBy_le_mem _ fs _ f hmem
  have hmaxY : f.envMaxY
      ≤ fs.foldl (fun a g => max a g.envMaxY) f0.envMaxY := by
    rcases List.mem_cons.mp hf with rfl | hmem
    · exact foldl_maxBy_ge_init _ fs _
    · exact foldl_maxBy_ge_mem _ fs _ f hmem
  have ht1 : ratTrunc ((fs.foldl (fun a g => min a g.envMinX) f0.envMinX
        - r.gt.originX) / r.gt.pixelWidth)
      ≤ ratTrunc ((f.envMinX - r.gt.originX) / r.gt.pixelWidth) := by
    refine ratTrunc_mono ((div_le_div_right hpw).mpr (by linarith))
  have ht2 : ratTrunc ((f.envMaxX - r.gt.originX) / r.gt.pixelWidth)
      ≤ ratTrunc ((fs.foldl (fun a g => max a g.envMaxX) f0.envMaxX
          - r.gt.originX) / r.gt.pixelWidth) := by
    refine ratTrunc_mono ((div_le_div_right hpw).mpr (by linarith))
  have ht3 : ratTrunc ((fs.foldl (fun a g => max a g.envMaxY) f0.envMaxY
        - r.gt.originY) / r.gt.pixelHeight)
      ≤ ratTrunc ((f.envMaxY - r.gt.originY) / r.gt.pixelHeight) := by
    refine ratTrunc_mono
      (div_le_div_of_nonpos_of_le (le_of_lt hph) (by linarith))
  have ht4 : ratTrunc ((f.envMinY - r.gt.originY) / r.gt.pixelHeight)
      ≤ ratTrunc ((fs.foldl (fun a g => min a g.envMinY) f0.envMinY
          - r.gt.originY) / r.gt.pixelHeight) := by
    refine ratTrunc_mono
      (div_le_div_of_nonpos_of_le (le_of_lt hph) (by linarith))
  refine ⟨ht1, ht3, by omega, by omega⟩

/-- Each side of the layer-extent window is attained by some feature's
window. -/
lemma hull_achieved (r : Raster) (f0 : Feature) (fs : List Feature) :
    (∃ f ∈ f0 :: fs,
      (bbox_to_pixel_offsets r.gt (layerExtent (f0 :: fs))).1
        = (bbox_to_pixel_offsets r.gt f.envelope).1)
    ∧ (∃ f ∈ f0 :: fs,
      (bbox_to_pixel_offsets r.gt (layerExtent (f0 :: fs))).2.1
        = (bbox_to_pixel_offsets r.gt f.envelope).2.1)
    ∧ (∃ f ∈ f0 :: fs,
      (bbox_to_pixel_offsets r.gt (layerExtent (f0 :: fs))).1
          + (bbox_to_pixel_offsets r.gt (layerExtent (f0 :: fs))).2.2.1
        = (bbox_to_pixel_offsets r.gt f.envelope).1
          + (bbox_to_pixel_offsets r.gt f.envelope).2.2.1)
    ∧ (∃ f ∈ f0 :: fs,
      (bbox_to_pixel_offsets r.gt (layerExtent (f0 :: fs))).2.1
          + (bbox_to_pixel_offsets r.gt (layerExtent (f0 :: fs))).2.2.2
        = (bbox_to_pixel_offsets r.gt f.envelope).2.1
          + (bbox_to_pixel_offsets r.gt f.envelope).2.2.2) := by
  refine ⟨?_, ?_, ?_, ?_⟩
  · rcases foldl_minBy_choice (fun g : Feature => g.envMinX) fs f0.envMinX
      with hc | ⟨x, hx, hcx⟩
    · exact ⟨f0, List.mem_cons_self f0 fs, by
        rw [bbox_def, bbox_def, layerExtent_cons]
        dsimp only [Feature.envelope]
        rw [hc]⟩
    · exact ⟨x, List.mem_cons_of_mem f0 hx, by
        rw [bbox_def, bbox_def, layerExtent_cons]
        dsimp only [Feature.envelope]
        rw [hcx]⟩
  · rcases foldl_maxBy_choice (fun g : Feature => g.envMaxY) fs f0.envMaxY
      with hc | ⟨x, hx, hcx⟩
    · exact ⟨f0, List.mem_cons_self f0 fs, by
        rw [bbox_def, bbox_def, layerExtent_cons]
        dsimp only [Feature.envelope]
        rw [hc]⟩
    · exact ⟨x, List.mem_cons_of_mem f0 hx, by
        rw [bbox_def, bbox_def, layerExtent_cons]
        dsimp only [Feature.envelope]
        rw [hcx]⟩
  · rcases foldl_maxBy_choice (fun g : Feature => g.envMaxX) fs f0.envMaxX
      with hc | ⟨x, hx, hcx⟩
    · exact ⟨f0, List.mem_cons_self f0 fs, by
        rw [bbox_def, bbox_def, layerExtent_cons]
        dsimp only [Feature.envelope]
        rw [hc]
        omega⟩
    · exact ⟨x, List.mem_cons_of_mem f0 hx, by
        rw [bbox_def, bbox_def, layerExtent_cons]
        dsimp only [Feature.envelope]
        rw [hcx]
        omega⟩
  · rcases foldl_minBy_choice (fun g : Feature => g.envMinY) fs f0.envMinY
      with hc | ⟨x, hx, hcx⟩
    · exact ⟨f0, List.mem_cons_self f0 fs, by
        rw [bbox_def, bbox_def, layerExtent_cons]
        dsimp only [Feature.envelope]
        rw [hc]
        omega⟩
    · exact ⟨x, List.mem_cons_of_mem f0 hx, by
        rw [bbox_def, bbox_def, layerExtent_cons]
        dsimp only [Feature.envelope]
        rw [hcx]
        omega⟩

/-- A well-formed envelope always yields positive window sizes. -/
lemma win_size_pos (r : Raster) (f : Feature)
    (hpw : 0 < r.gt.pixelWidth) (hph : r.gt.pixelHeight < 0)
    (h1 : f.envMinX ≤ f.envMaxX) (h2 : f.envMinY ≤ f.envMaxY) :
    0 < (bbox_to_pixel_offsets r.gt f.envelope).2.2.1
    ∧ 0 < (bbox_to_pixel_offsets r.gt f.envelope).2.2.2 := by
  rw [bbox_def]
  dsimp only [Feature.envelope]
  have hx : ratTrunc ((f.envMinX - r.gt.originX) / r.gt.pixelWidth)
      ≤ ratTrunc ((f.envMaxX - r.gt.originX) / r.gt.pixelWidth) :=
    ratTrunc_mono ((div_le_div_right hpw).mpr (by linarith))
  have hy : ratTrunc ((f.envMaxY - r.gt.originY) / r.gt.pixelHeight)
      ≤ ratTrunc ((f.envMinY - r.gt.originY) / r.gt.pixelHeight) :=
    ratTrunc_mono (div_le_div_of_nonpos_of_le (le_of_lt hph) (by linarith))
  constructor <;> omega

/-- `processLocal` when the feature's window read succeeds. -/
lemma processLocal_inbounds (r : Raster) (nodata : Option ℚ) (f : Feature)
    (hin : windowInBounds r (bbox_to_pixel_offsets r.gt f.envelope).1
      (bbox_to_pixel_offsets r.gt f.envelope).2.1
      (bbox_to_pixel_offsets r.gt f.envelope).2.2.1
      (bbox_to_pixel_offsets r.gt f.envelope).2.2.2) :
    processLocal r nodata f
      = (processFeature nodata
          (readWindow r (bbox_to_pixel_offsets r.gt f.envelope).1
            (bbox_to_pixel_offsets r.gt f.envelope).2.1
            (bbox_to_pixel_offsets r.gt f.envelope).2.2.1
            (bbox_to_pixel_offsets r.gt f.envelope).2.2.2)
          (subsetGT r.gt (bbox_to_pixel_offsets r.gt f.envelope).1
            (bbox_to_pixel_offsets r.gt f.envelope).2.1)
          (bbox_to_pixel_offsets r.gt f.envelope).2.2.1
          (bbox_to_pixel_offsets r.gt f.envelope).2.2.2 f).map
        fun st => (st, 1) := by
  unfold processLocal
  dsimp only
  rw [show readAsArray r (bbox_to_pixel_offsets r.gt f.envelope).1
      (bbox_to_pixel_offsets r.gt f.envelope).2.1
      (bbox_to_pixel_offsets r.gt f.envelope).2.2.1
      (bbox_to_pixel_offsets r.gt f.envelope).2.2.2
    = some (readWindow r (bbox_to_pixel_offsets r.gt f.envelope).1
      (bbox_to_pixel_offsets r.gt f.envelope).2.1
      (bbox_to_pixel_offsets r.gt f.envelope).2.2.1
      (bbox_to_pixel_offsets r.gt f.envelope).2.2.2) from by
    unfold readAsArray
    rw [if_pos hin]]
  cases hpf : processFeature nodata
      (readWindow r (bbox_to_pixel_offsets r.gt f.envelope).1
        (bbox_to_pixel_offsets r.gt f.envelope).2.1
        (bbox_to_pixel_offsets r.gt f.envelope).2.2.1
        (bbox_to_pixel_offsets r.gt f.envelope).2.2.2)
      (subsetGT r.gt (bbox_to_pixel_offsets r.gt f.envelope).1
        (bbox_to_pixel_offsets r.gt f.envelope).2.1)
      (bbox_to_pixel_offsets r.gt f.envelope).2.2.1
      (bbox_to_pixel_offsets r.gt f.envelope).2.2.2 f with
  | error e => simp [hpf, Except.map]
  | ok st => simp [hpf, Except.map]

/-- `processLocal` when the feature's window read fails. -/
lemma processLocal_oob (r : Raster) (nodata : Option ℚ) (f : Feature)
    (hnin : ¬ windowInBounds r (bbox_to_pixel_offsets r.gt f.envelope).1
      (bbox_to_pixel_offsets r.gt f.envelope).2.1
      (bbox_to_pixel_offsets r.gt f.envelope).2.2.1
      (bbox_to_pixel_offsets r.gt f.envelope).2.2.2) :
    processLocal r nodata f = Except.error "ReadAsArray failed" := by
  unfold processLocal
  dsimp only
  rw [show readAsArray r (bbox_to_pixel_offsets r.gt f.envelope).1
      (bbox_to_pixel_offsets r.gt f.envelope).2.1
      (bbox_to_pixel_offsets r.gt f.envelope).2.2.1
      (bbox_to_pixel_offsets r.gt f.envelope).2.2.2 = none from by
    unfold readAsArray
    rw [if_neg hnin]]

/-- Two step functions that agree on produced stats give loops that agree
on produced stats. -/
lemma zonalLoop_map_fst_congr
    (s1 s2 : Feature → Except String (FeatureStats × ℕ)) :
    ∀ feats : List Feature,
      (∀ f ∈ feats, (s1 f).map Prod.fst = (s2 f).map Prod.fst) →
      (zonalLoop s1 feats).map Prod.fst
        = (zonalLoop s2 feats).map Prod.fst := by
  intro feats
  induction feats with
  | nil => intro _; rfl
  | cons f fs ih =>
    intro hag
    have hf := hag f (List.mem_cons_self f fs)
    have hrest := ih fun g hg => hag g (List.mem_cons_of_mem f hg)
    unfold zonalLoop
    cases h1 : s1 f with
    | error e1 =>
      cases h2 : s2 f with
      | error e2 =>
        rw [h1, h2] at hf
        simp only [Except.map] at hf
        cases hf
        rfl
      | ok stn2 =>
        rw [h1, h2] at hf
        simp [Except.map] at hf
    | ok stn1 =>
      cases h2 : s2 f with
      | error e2 =>
        rw [h1, h2] at hf
        simp [Except.map] at hf
      | ok stn2 =>
        rw [h1, h2] at hf
        simp only [Except.map] at hf
        rcases stn1 with ⟨st1, n1⟩
        rcases stn2 with ⟨st2, n2⟩
        cases hf
        cases hl1 : zonalLoop s1 fs with
        | error e1 =>
          cases hl2 : zonalLoop s2 fs with
          | error e2 =>
            rw [hl1, hl2] at hrest
            simp only [Except.map] at hrest
            cases hrest
            rfl
          | ok out2 =>
            rw [hl1, hl2] at hrest
            simp [Except.map] at hrest
        | ok out1 =>
          cases hl2 : zonalLoop s2 fs with
          | error e2 =>
            rw [hl1, hl2] at hrest
            simp [Except.map] at hrest
          | ok out2 =>
            rw [hl1, hl2] at hrest
            simp only [Except.map] at hrest
            rcases out1 with ⟨sts1, m1⟩
            rcases out2 with ⟨sts2, m2⟩
            cases hrest
            rfl

/-- C5 (amended).  For a raster following the north-up convention
(pixelWidth positive, pixelHeight negative), features with well-formed
envelopes whose rasterized coverage is confined to each feature's
envelope, and any no-data value, the global-extent and local-extent
strategies produce identical FeatureStats sequences: either both runs
fail, or both succeed with the same records in the same order.  The
unrestricted claim is false: on a south-up raster (pixelHeight positive,
allowed by the invariant pixelHeight different from zero) the layer-hull
window can be degenerate, so the global run crashes while the local run
succeeds (see the counterexample theorem). -/
theorem zonal_stats_mode_equiv (r : Raster) (feats : List Feature)
    (nodata : Option ℚ)
    (hpw : 0 < r.gt.pixelWidth) (hph : r.gt.pixelHeight < 0)
    (henv : ∀ f ∈ feats, f.envMinX ≤ f.envMaxX ∧ f.envMinY ≤ f.envMaxY)
    (hcov : ∀ f ∈ feats, ∀ x y, f.covers x y = true →
      f.envMinX ≤ x ∧ x ≤ f.envMaxX ∧ f.envMinY ≤ y ∧ y ≤ f.envMaxY) :
    (zonal_stats r feats nodata true).toOption.map Prod.fst
      = (zonal_stats r feats nodata false).toOption.map Prod.fst := by
  cases feats with
  | nil => rfl
  | cons f0 fs =>
  rw [zonal_stats_global_def, zonal_stats_local_def]
  dsimp only
  by_cases hall : ∀ f ∈ f0 :: fs,
      windowInBounds r (bbox_to_pixel_offsets r.gt f.envelope).1
        (bbox_to_pixel_offsets r.gt f.envelope).2.1
        (bbox_to_pixel_offsets r.gt f.envelope).2.2.1
        (bbox_to_pixel_offsets r.gt f.envelope).2.2.2
  · rcases hull_achieved r f0 fs with
      ⟨⟨fa, hfa, ha⟩, ⟨fb, hfb, hb⟩, ⟨fc, hfc, hc⟩, ⟨fd, hfd, hd⟩⟩
    have hsub := hull_sub r f0 fs hpw hph
    have hs0 := hsub f0 (List.mem_cons_self f0 fs)
    have hgin : windowInBounds r
        (bbox_to_pixel_offsets r.gt (layerExtent (f0 :: fs))).1
        (bbox_to_pixel_offsets r.gt (layerExtent (f0 :: fs))).2.1
        (bbox_to_pixel_offsets r.gt (layerExtent (f0 :: fs))).2.2.1
        (bbox_to_pixel_offsets r.gt (layerExtent (f0 :: fs))).2.2.2 := by
      have ha2 := hall fa hfa
      have hb2 := hall fb hfb
      have hc2 := hall fc hfc
      have hd2 := hall fd hfd
      have h02 := hall f0 (List.mem_cons_self f0 fs)
      unfold windowInBounds at ha2 hb2 hc2 hd2 h02 ⊢
      omega
    rw [show readAsArray r
        (bbox_to_pixel_offsets r.gt (layerExtent (f0 :: fs))).1
        (bbox_to_pixel_offsets r.gt (layerExtent (f0 :: fs))).2.1
        (bbox_to_pixel_offsets r.gt (layerExtent (f0 :: fs))).2.2.1
        (bbox_to_pixel_offsets r.gt (layerExtent (f0 :: fs))).2.2.2
      = some (readWindow r
        (bbox_to_pixel_offsets r.gt (layerExtent (f0 :: fs))).1
        (bbox_to_pixel_offsets r.gt (layerExtent (f0 :: fs))).2.1
        (bbox_to_pixel_offsets r.gt (layerExtent (f0 :: fs))).2.2.1
        (bbox_to_pixel_offsets r.gt (layerExtent (f0 :: fs))).2.2.2) from by
      unfold readAsArray
      rw [if_pos hgin]]
    have hagree : ∀ f ∈ f0 :: fs,
        (processGlobal nodata
          (some (readWindow r
            (bbox_to_pixel_offsets r.gt (layerExtent (f0 :: fs))).1
            (bbox_to_pixel_offsets r.gt (layerExtent (f0 :: fs))).2.1
            (bbox_to_pixel_offsets r.gt (layerExtent (f0 :: fs))).2.2.1
            (bbox_to_pixel_offsets r.gt (layerExtent (f0 :: fs))).2.2.2))
          (subsetGT r.gt
            (bbox_to_pixel_offsets r.gt (layerExtent (f0 :: fs))).1
            (bbox_to_pixel_offsets r.gt (layerExtent (f0 :: fs))).2.1)
          (bbox_to_pixel_offsets r.gt (layerExtent (f0 :: fs))).2.2.1
          (bbox_to_pixel_offsets r.gt (layerExtent (f0 :: fs))).2.2.2
          f).map Prod.fst
        = (processLocal r nodata f).map Prod.fst := by
      intro f hf
      simp only [processGlobal]
      rw [processLocal_inbounds r nodata f (hall f hf)]
      have hcapt : ∀ p q,
          (bbox_to_pixel_offsets r.gt (layerExtent (f0 :: fs))).1 ≤ p →
          p < (bbox_to_pixel_offsets r.gt (layerExtent (f0 :: fs))).1
            + (bbox_to_pixel_offsets r.gt (layerExtent (f0 :: fs))).2.2.1 →
          (bbox_to_pixel_offsets r.gt (layerExtent (f0 :: fs))).2.1 ≤ q →
          q < (bbox_to_pixel_offsets r.gt (layerExtent (f0 :: fs))).2.1
            + (bbox_to_pixel_offsets r.gt (layerExtent (f0 :: fs))).2.2.2 →
          coversCell r.gt f.covers p q = true →
          (bbox_to_pixel_offsets r.gt f.envelope).1 ≤ p
          ∧ p < (bbox_to_pixel_offsets r.gt f.envelope).1
              + (bbox_to_pixel_offsets r.gt f.envelope).2.2.1
          ∧ (bbox_to_pixel_offsets r.gt f.envelope).2.1 ≤ q
          ∧ q < (bbox_to_pixel_offsets r.gt f.envelope).2.1
              + (bbox_to_pixel_offsets r.gt f.envelope).2.2.2 := by
        intro p q hp1 _ hq1 _ hcv
        have hgin2 := hgin
        unfold windowInBounds at hgin2
        have hp0 : 0 ≤ p := by omega
        have hq0 : 0 ≤ q := by omega
        exact coversCell_capture r f hpw hph (hcov f hf) p q hp0 hq0 hcv
      rw [processFeature_window_indep r nodata f
        (bbox_to_pixel_offsets r.gt f.envelope).1
        (bbox_to_pixel_offsets r.gt f.envelope).2.1
        (bbox_to_pixel_offsets r.gt f.envelope).2.2.1
        (bbox_to_pixel_offsets r.gt f.envelope).2.2.2
        (bbox_to_pixel_offsets r.gt (layerExtent (f0 :: fs))).1
        (bbox_to_pixel_offsets r.gt (layerExtent (f0 :: fs))).2.1
        (bbox_to_pixel_offsets r.gt (layerExtent (f0 :: fs))).2.2.1
        (bbox_to_pixel_offsets r.gt (layerExtent (f0 :: fs))).2.2.2
        (hsub f hf).1 (hsub f hf).2.1 (hsub f hf).2.2.1 (hsub f hf).2.2.2
        (by
          have := hall f hf
          unfold windowInBounds at this
          omega)
        (by
          have := hall f hf
          unfold windowInBounds at this
          omega)
        hcapt]
      cases hpf : processFeature nodata
          (readWindow r (bbox_to_pixel_offsets r.gt f.envelope).1
            (bbox_to_pixel_offsets r.gt f.envelope).2.1
            (bbox_to_pixel_offsets r.gt f.envelope).2.2.1
            (bbox_to_pixel_offsets r.gt f.envelope).2.2.2)
          (subsetGT r.gt (bbox_to_pixel_offsets r.gt f.envelope).1
            (bbox_to_pixel_offsets r.gt f.envelope).2.1)
          (bbox_to_pixel_offsets r.gt f.envelope).2.2.1
          (bbox_to_pixel_offsets r.gt f.envelope).2.2.2 f with
      | error e => simp [Except.map]
      | ok st => simp [Except.map]
    have hloops := zonalLoop_map_fst_congr _ _ (f0 :: fs) hagree
    cases hgl : zonalLoop (processGlobal nodata
        (some (readWindow r
          (bbox_to_pixel_offsets r.gt (layerExtent (f0 :: fs))).1
          (bbox_to_pixel_offsets r.gt (layerExtent (f0 :: fs))).2.1
          (bbox_to_pixel_offsets r.gt (layerExtent (f0 :: fs))).2.2.1
          (bbox_to_pixel_offsets r.gt (layerExtent (f0 :: fs))).2.2.2))
        (subsetGT r.gt
          (bbox_to_pixel_offsets r.gt (layerExtent (f0 :: fs))).1
          (bbox_to_pixel_offsets r.gt (layerExtent (f0 :: fs))).2.1)
        (bbox_to_pixel_offsets r.gt (layerExtent (f0 :: fs))).2.2.1
        (bbox_to_pixel_offsets r.gt (layerExtent (f0 :: fs))).2.2.2)
        (f0 :: fs) with
    | error e =>
      cases hll : zonalLoop (processLocal r nodata) (f0 :: fs) with
      | error e2 => simp [hgl, hll, Except.toOption]
      | ok out =>
        rw [hgl, hll] at hloops
        simp [Except.map] at hloops
    | ok out =>
      rcases out with ⟨sts, n⟩
      cases hll : zonalLoop (processLocal r nodata) (f0 :: fs) with
      | error e2 =>
        rw [hgl, hll] at hloops
        simp [Except.map] at hloops
      | ok out2 =>
        rcases out2 with ⟨sts2, n2⟩
        rw [hgl, hll] at hloops
        simp only [Except.map] at hloops
        cases hloops
        simp [hgl, hll, Except.toOption]
  · push_neg at hall
    rcases hall with ⟨fbad, hfbad, hbad⟩
    have hsubb := hull_sub r f0 fs hpw hph fbad hfbad
    have hposb := win_size_pos r fbad hpw hph (henv fbad hfbad).1
      (henv fbad hfbad).2
    have hgnot : ¬ windowInBounds r
        (bbox_to_pixel_offsets r.gt (layerExtent (f0 :: fs))).1
        (bbox_to_pixel_offsets r.gt (layerExtent (f0 :: fs))).2.1
        (bbox_to_pixel_offsets r.gt (layerExtent (f0 :: fs))).2.2.1
        (bbox_to_pixel_offsets r.gt (layerExtent (f0 :: fs))).2.2.2 := by
      intro hgin
      apply hbad
      unfold windowInBounds at hgin ⊢
      omega
    rw [show readAsArray r
        (bbox_to_pixel_offsets r.gt (layerExtent (f0 :: fs))).1
        (bbox_to_pixel_offsets r.gt (layerExtent (f0 :: fs))).2.1
        (bbox_to_pixel_offsets r.gt (layerExtent (f0 :: fs))).2.2.1
        (bbox_to_pixel_offsets r.gt (layerExtent (f0 :: fs))).2.2.2
      = none from by
      unfold readAsArray
      rw [if_neg hgnot]]
    have hglerr : zonalLoop (processGlobal nodata none
        (subsetGT r.gt
          (bbox_to_pixel_offsets r.gt (layerExtent (f0 :: fs))).1
          (bbox_to_pixel_offsets r.gt (layerExtent (f0 :: fs))).2.1)
        (bbox_to_pixel_offsets r.gt (layerExtent (f0 :: fs))).2.2.1
        (bbox_to_pixel_offsets r.gt (layerExtent (f0 :: fs))).2.2.2)
        (f0 :: fs)
        = Except.error "MaskedArray: mask and data not compatible" := rfl
    rw [hglerr]
    cases hll : zonalLoop (processLocal r nodata) (f0 :: fs) with
    | error e => simp [hll, Except.toOption]
    | ok out =>
      exfalso
      rcases zonalLoop_mem_ok _ _ out hll fbad hfbad with ⟨stn, hstn⟩
      rw [processLocal_oob r nodata fbad hbad] at hstn
      cases hstn

/-- A feature whose coverage predicate is confined to its envelope. -/
def featC5 : Feature :=
  ⟨1, some 2, 0, 1/2, 1, 2,
   fun x y => decide (0 ≤ x) && decide (x ≤ 1/2) && decide (1 ≤ y)
     && decide (y ≤ 2)⟩

/-- Witness for C5 at a concrete raster and feature list. -/
theorem zonal_stats_mode_equiv_witness :
    0 < rasterW.gt.pixelWidth
    ∧ rasterW.gt.pixelHeight < 0
    ∧ (zonal_stats rasterW [featC5] none true).toOption.map Prod.fst
        = (zonal_stats rasterW [featC5] none false).toOption.map Prod.fst := by
  refine ⟨by norm_num [rasterW], by norm_num [rasterW], ?_⟩
  refine zonal_stats_mode_equiv rasterW [featC5] none
    (by norm_num [rasterW]) (by norm_num [rasterW]) ?_ ?_
  · intro f hf
    rw [List.mem_singleton] at hf
    subst hf
    constructor <;> norm_num [featC5]
  · intro f hf x y hxy
    rw [List.mem_singleton] at hf
    subst hf
    simp only [featC5, Bool.and_eq_true, decide_eq_true_eq] at hxy
    refine ⟨?_, ?_, ?_, ?_⟩ <;> tauto

/-- A 10-by-10 south-up raster: origin (0, 0), pixelHeight = +1.  The spec
invariant only demands nonzero pixel sizes, so this input is legal. -/
def rasterSouth : Raster := ⟨10, 10, ⟨0, 1, 0, 0, 0, 1⟩, fun _ _ => 21⟩

/-- First feature on the south-up raster; its own window is the valid
one-row read (0, 0, 1, 1). -/
def featS1 : Feature := ⟨1, some 1, 1/5, 4/5, 1/5, 4/5, fun _ _ => false⟩

/-- Second feature on the south-up raster; its own window is the valid
one-row read (0, 1, 1, 1). -/
def featS2 : Feature := ⟨2, some 2, 1/5, 4/5, 6/5, 9/5, fun _ _ => false⟩

/-- Counterexample to C5 as stated (no side conditions).  On the south-up
raster the two per-feature windows are valid single-row reads, so the
local-extent run succeeds with two records; but the layer-hull window has
ysize = ratTrunc(1/5) + 1 - ratTrunc(9/5) = 0, so the global-extent read
fails and that run crashes.  The two strategies do not produce identical
FeatureStats sequences. -/
theorem zonal_stats_mode_equiv_cex :
    (zonal_stats rasterSouth [featS1, featS2] none true).toOption.map
        Prod.fst
      ≠ (zonal_stats rasterSouth [featS1, featS2] none false).toOption.map
          Prod.fst := by
  with_unfolding_all decide
